import Mathlib

/-!
Verification development for the glow-export repository
(`src/parse.py`, `src/parse_history.py`): a shallow embedding of the
program's operations, with theorems settling the specification's claims.

Modelling conventions:

* Python strings are modelled as `List Char`.  `str.lower` on the ASCII
  column names is `Char.toLower`; Python string `<` compares code points,
  modelled via `Char.toNat`.
* A pandas cell is `Option (List Char)`: `none` models a NaN / missing cell.
* `PIXELS_PER_MINUTE = SEGMENT_WIDTH / 4.0 / 60.0` is mathematically
  `241/80 = 3.0125`, but the program computes with the IEEE-754 double
  nearest to it, whose exact value is `PPM_FLOAT = 3391773469363405 / 2^50`,
  strictly above `241/80`.  The three float operations are modelled as
  follows.  The guard `current_duration > PIXELS_PER_MINUTE` holds for an
  integer counter iff `cd ≥ 4`, identically for the double and for `241/80`
  (no integer lies between them) — embedded as `241 < 80 * cd`.
  `int(total_pixels / PIXELS_PER_MINUTE)` divides first (the quotient is
  correctly rounded to the nearest double, which restores the exact value
  `80·tp/241` at every multiple of 241 in the reachable range
  `tp ≤ 4337`) and then truncates, so it equals `80 * tp / 241` — embedded
  that way in `totalMinutes`.  Float floor-division
  `current_duration // PIXELS_PER_MINUTE`, however, floors the exact
  quotient of its operands, so at the reachable multiples of 241 it is one
  below `80·cd/241` (e.g. `241 // 3.0125 == 79.0`); it is embedded exactly
  as `⌊cd / PPM_FLOAT⌋ = 2^50 * cd / 3391773469363405` in `durationPixels`.
* Fallible Python code (raising `ValueError` / `AttributeError`) is
  modelled with `Except`.
-/

deriving instance DecidableEq for Except

namespace Glow

/-- The characters of a string literal (Python `str` as `List Char`). -/
def str (s : String) : List Char := s.data

/-! ## History extractor (`src/parse_history.py`) -/

/-- `SEGMENT_WIDTH` from parse_history.py: pixel width of one 4-hour segment. -/
def SEGMENT_WIDTH : Nat := 723

/-- `PIXELS_PER_MINUTE = SEGMENT_WIDTH / 4.0 / 60.0` from parse_history.py,
as an exact rational (`241/80 = 3.0125`). -/
def PIXELS_PER_MINUTE : ℚ := (SEGMENT_WIDTH : ℚ) / 4 / 60

/-- The exact value of the Python double `PIXELS_PER_MINUTE`: rounding
`3.0125` to binary64 gives mantissa
`round(0.50625 * 2^52) = round(2279947311356313.6) = 2279947311356314`,
so the double is `2 * (1 + 2279947311356314/2^52) = 6783546938726810/2^51 =
3391773469363405/2^50`, strictly above `241/80` (by `1/(5·2^50)`). -/
def PPM_FLOAT : ℚ := 3391773469363405 / 1125899906842624

/-- The duration computation inside `process_timeseries`:
`current_duration // PIXELS_PER_MINUTE` — float floor-division of the
integer counter by the double.  CPython's float floor-division returns the
floor of the exact quotient of its operands, so for an exactly representable
integer `cd` this is `⌊cd / PPM_FLOAT⌋ = 2^50 * cd / 3391773469363405`
(e.g. `241 // 3.0125 == 79.0`, one below `⌊241·80/241⌋ = 80`, because the
double is strictly above `241/80`).  The theorem `duration_eq_source` below
restates it as the rational floor, and `durationPixels_vs_exact` pins down
where it deviates from the exact-rational floor within a segment. -/
def durationPixels (cd : Nat) : Nat := 1125899906842624 * cd / 3391773469363405

/-- A per-column pixel-series value as appended by `extract_timeseries`:
`1` (target color), `0` (WHITE background) or `np.nan` (ambiguous color). -/
inductive Px
  | one
  | zero
  | nan
deriving DecidableEq, Repr

/-- A calendar date, as produced by `datetime.date(year, month, day)`. -/
structure Date where
  year : Nat
  month : Nat
  day : Nat
deriving DecidableEq, Repr

/-- A `datetime.datetime(year, month, day, hour, minutes)` value. -/
structure DT where
  date : Date
  hour : Nat
  minute : Nat
deriving DecidableEq, Repr

/-- The minutes-of-day computation inside `process_timeseries`:
`total_minutes = min(int(total_pixels / PIXELS_PER_MINUTE), 60 * 24 - 1)`
where `total_pixels = bin_num * SEGMENT_WIDTH + start_i`.  The quotient is
nonnegative, so Python's `int(...)` truncation is the floor, and
`⌊tp / (241/80)⌋ = 80 * tp / 241` in natural-number division — the theorem
`totalMinutes_eq_source` below proves this agreement with the source
formula. -/
def totalMinutes (bin_num start_i : Nat) : Nat :=
  min (80 * (bin_num * SEGMENT_WIDTH + start_i) / 241) (60 * 24 - 1)

/-- The loop of `process_timeseries(values, bin_num, date)`, modelled as
direct recursion.  Arguments are the loop state — the enumeration index `i`,
`prev_val`, `current_duration` — and the remaining values; the `results`
accumulator is the returned list (events appear in append order).  On a non-`1`
value with `prev_val == 1` and `current_duration > PIXELS_PER_MINUTE` an event
is emitted with `start_i = i - current_duration`, timestamp from
`totalMinutes`, and duration `current_duration // PIXELS_PER_MINUTE`;
`current_duration` is reset to `0` only in that branch, exactly as in the
source.  The guard `current_duration > PIXELS_PER_MINUTE` is expressed as
`241 < 80 * current_duration` (equivalent for an integer counter against
both the double and the exact `241/80` — `ptGo_guard_eq_source` /
`ptGo_guard_eq_float` below); the duration is the float floor-division
`durationPixels`. -/
def ptGo (bin_num : Nat) (date : Date) : Nat → Px → Nat → List Px → List (DT × Nat)
  | _, _, _, [] => []
  | i, prev, cd, v :: vs =>
    if v = Px.one then
      ptGo bin_num date (i + 1) v (cd + 1) vs
    else if prev = Px.one ∧ 241 < 80 * cd then
      (⟨date, totalMinutes bin_num (i - cd) / 60, totalMinutes bin_num (i - cd) % 60⟩,
        durationPixels cd) :: ptGo bin_num date (i + 1) v 0 vs
    else
      ptGo bin_num date (i + 1) v cd vs

/-- `process_timeseries(values, bin_num, date)` from parse_history.py:
convert a per-column pixel series into `(datetime, duration)` event tuples.
Initial state: `prev_val = 0`, `current_duration = 0`. -/
def process_timeseries (values : List Px) (bin_num : Nat) (date : Date) :
    List (DT × Nat) :=
  ptGo bin_num date 0 Px.zero 0 values

/-- The color ranges returned by `_get_color_range`. -/
inductive ColorRange
  | WHITE
  | DARK
  | BLUE
  | YELLOW
deriving DecidableEq, Repr

/-- `_get_color_range(r, g, b)` from parse_history.py, `THRESHOLD = 235`.
The inputs are averaged RGB components (`np.mean`), hence rationals.
`None` (no range matches) is `none`.  Note the YELLOW branch tests
`r > THRESHOLD` strictly while WHITE and BLUE use `>=`. -/
def get_color_range (r g b : ℚ) : Option ColorRange :=
  if r = g ∧ g = b then
    some (if 235 ≤ r then ColorRange.WHITE else ColorRange.DARK)
  else if 235 ≤ b ∧ r < 235 ∧ g < 235 then
    some ColorRange.BLUE
  else if 235 < r ∧ b < 235 ∧ g < 235 then
    some ColorRange.YELLOW
  else
    none

/-- Observer (not from the source): length of the longest contiguous run of
`1`-values in a series, used to state the claims about run-length
segmentation. -/
def maxOnesRun (l : List Px) : Nat :=
  (l.foldl (fun p v => if v = Px.one then (p.1 + 1, max p.2 (p.1 + 1)) else (0, p.2))
    (0, 0)).2

/-! ## `os.path.mkdir` in `_write_tmp_jpg` -/

/-- Python error values relevant to this embedding. -/
inductive PyErr
  | attributeError (module attr : String)
  | valueError (msg : List Char)
deriving DecidableEq, Repr

/-- The public attributes of CPython's `os.path` module (`posixpath`).
Directory creation (`mkdir`) lives on the `os` module, not on `os.path`,
so it is not in this list. -/
def osPathAttrs : List String :=
  ["abspath", "altsep", "basename", "commonpath", "commonprefix", "curdir",
   "defpath", "devnull", "dirname", "exists", "expanduser", "expandvars",
   "extsep", "genericpath", "getatime", "getctime", "getmtime", "getsize",
   "isabs", "isdir", "isfile", "islink", "ismount", "join", "lexists",
   "normcase", "normpath", "os", "pardir", "pathsep", "realpath", "relpath",
   "samefile", "sameopenfile", "samestat", "sep", "split", "splitdrive",
   "splitext", "stat", "supports_unicode_filenames", "sys"]

/-- Attribute access `os.path.<attr>`: raises `AttributeError` when the
module has no such attribute. -/
def osPathGetattr (attr : String) : Except PyErr Unit :=
  if attr ∈ osPathAttrs then Except.ok ()
  else Except.error (PyErr.attributeError "os.path" attr)

/-- The directory-ensuring step at the top of `_write_tmp_jpg`
(parse_history.py lines 61-62):
`if not os.path.isdir(TEMP_DIR): os.path.mkdir(TEMP_DIR)`.
The input is whether `tmp/` exists (`os.path.isdir(TEMP_DIR)`).  In the
absent case the code evaluates the attribute `os.path.mkdir`; the attribute
lookup happens (and can fail) before any call is made. -/
def ensure_temp_dir (tmpdirExists : Bool) : Except PyErr Unit :=
  if tmpdirExists then Except.ok ()
  else osPathGetattr "mkdir"

/-! ## Filename handling (shared by both parsers) -/

/-- Position of the last `'.'` in a list, if any (Python `str.rfind('.')`). -/
def lastDotPos : List Char → Option Nat
  | [] => none
  | c :: cs =>
    match lastDotPos cs with
    | some k => some (k + 1)
    | none => if c = '.' then some 0 else none

/-- The root part of `os.path.splitext(f)` for a bare filename (no directory
separator): split at the last dot, unless every character before that dot is
itself a dot (so e.g. `".pdf"` has no extension).  Mirrors CPython's
`genericpath._splitext`. -/
def splitextRoot (f : List Char) : List Char :=
  match lastDotPos f with
  | none => f
  | some k =>
    let root := f.take k
    if root.all (fun c => c = '.') then f else root

/-- Python `s.split("_")[-1]`: the suffix after the last underscore (the
whole string when it contains none). -/
def lastTokenU (l : List Char) : List Char :=
  (l.reverse.takeWhile (fun c => c ≠ '_')).reverse

/-- The date derivation in `parse_summary` (parse.py lines 28-30):
`date = os.path.splitext(f)[0].split("_")[-1]` and
`date_str = "%s-%s-%s" % (date[4:], date[0:2], date[2:4])`. -/
def dateStrOfFilename (f : List Char) : List Char :=
  let date := lastTokenU (splitextRoot f)
  date.drop 4 ++ '-' :: date.take 2 ++ '-' :: (date.drop 2).take 2

/-- Python `int()` of a digit string. -/
def natOfDigits (l : List Char) : Nat :=
  l.foldl (fun n c => n * 10 + (c.toNat - 48)) 0

/-- Gregorian leap year, as in `datetime`'s proleptic calendar. -/
def isLeap (y : Nat) : Bool := y % 4 = 0 ∧ (y % 100 ≠ 0 ∨ y % 400 = 0)

/-- Days in a month, as in `datetime`. -/
def daysInMonth (y m : Nat) : Nat :=
  if m = 2 then (if isLeap y then 29 else 28)
  else if m = 4 ∨ m = 6 ∨ m = 9 ∨ m = 11 then 30
  else 31

/-- `datetime.date(y, m, d)`: validates `1 <= y <= 9999`, `1 <= m <= 12`
and `1 <= d <= days in month`, raising `ValueError` otherwise. -/
def pyDate (y m d : Nat) : Except PyErr Date :=
  if 1 ≤ y ∧ y ≤ 9999 ∧ 1 ≤ m ∧ m ≤ 12 ∧ 1 ≤ d ∧ d ≤ daysInMonth y m then
    Except.ok ⟨y, m, d⟩
  else Except.error (PyErr.valueError (str "invalid date"))

/-- The date derivation in `_read_and_process_tmp_jpg` (parse_history.py
lines 76-79): `date_str = os.path.splitext(filename)[0].split("_")[-1]` and
`start_date = datetime.date(int(date_str[4:]), int(date_str[0:2]),
int(date_str[2:4]))`. -/
def startDateOfFilename (f : List Char) : Except PyErr Date :=
  let ds := lastTokenU (splitextRoot f)
  pyDate (natOfDigits (ds.drop 4)) (natOfDigits (ds.take 2))
    (natOfDigits ((ds.drop 2).take 2))

/-! ## Column-name normalization (`parse_summary`) -/

/-- Python `s.split(" ")` with an explicit single-space separator (keeps
empty pieces, as `str.split` with an argument does). -/
def pySplitSpace : List Char → List (List Char)
  | [] => [[]]
  | c :: cs =>
    match pySplitSpace cs with
    | [] => [[c]]
    | g :: gs => if c = ' ' then [] :: g :: gs else (c :: g) :: gs

/-- Python `"_".join(groups)`. -/
def joinUnderscore : List (List Char) → List Char
  | [] => []
  | [g] => g
  | g :: gs => g ++ '_' :: joinUnderscore gs

/-- The column-name mapper of `parse_summary` (parse.py line 25):
`lambda c: "_".join(c.lower().split(" "))`, applied to every column of the
combined row.  `Char.toLower` matches `str.lower` on the ASCII column names
involved. -/
def normalizeColumn (c : List Char) : List Char :=
  joinUnderscore (pySplitSpace (c.map Char.toLower))

/-- Python string `<=` (code-point lexicographic order), the order pandas
uses when sorting by the `week_start_date` string column. -/
def strLe : List Char → List Char → Bool
  | [], _ => true
  | _ :: _, [] => false
  | a :: as, b :: bs =>
    if a.toNat < b.toNat then true
    else if b.toNat < a.toNat then false
    else strLe as bs

/-! ## The compound-metric regex (`_extract_metric_and_percentile`) -/

/-- One token of the (linear) pattern used by `_extract_metric_and_percentile`:
a literal character, or a greedy Kleene star over a character class, which
captures a group when `cap` is `true`. -/
inductive RTok
  | lit (c : Char)
  | star (cls : Char → Bool) (cap : Bool)

/-- Backtracking matcher for a sequence of `RTok` against a character list,
anchored at the start with the tail of the input unconstrained (the
semantics of `re.match`: matching a prefix suffices).  Stars are greedy: the
longest class-prefix is tried first, exactly `re`'s backtracking order.
Returns the captured groups in token order on success. -/
def reMatch : List RTok → List Char → Option (List (List Char))
  | [], _ => some []
  | RTok.lit c :: ts, xs =>
    match xs with
    | [] => none
    | x :: xs => if x = c then reMatch ts xs else none
  | RTok.star cls cap :: ts, xs =>
    ((List.range ((xs.takeWhile cls).length + 1)).reverse).findSome? fun k =>
      (reMatch ts (xs.drop k)).map fun caps =>
        if cap then xs.take k :: caps else caps

/-- The character class `[\d.]`. -/
def isDigitDot (c : Char) : Bool := c.isDigit || c = '.'

/-- The class `.`: any character except newline (Python default). -/
def isNotNewline (c : Char) : Bool := c ≠ '\n'

/-- The pattern `([\d.]*) (.*) \/ ([\d.]*) (.*) \(([\d.]*).*\)` of
`_extract_metric_and_percentile` (parse.py line 64), tokenized in order. -/
def metricPattern : List RTok :=
  [RTok.star isDigitDot true, RTok.lit ' ', RTok.star isNotNewline true,
   RTok.lit ' ', RTok.lit '/', RTok.lit ' ', RTok.star isDigitDot true,
   RTok.lit ' ', RTok.star isNotNewline true, RTok.lit ' ', RTok.lit '(',
   RTok.star isDigitDot true, RTok.star isNotNewline false, RTok.lit ')']

/-- The `ValueError` message raised on a pattern mismatch:
`"Invalid data: %s does not match expected format" % string`. -/
def invalidFormatMsg (s : List Char) : List Char :=
  str "Invalid data: " ++ s ++ str " does not match expected format"

/-- `_extract_metric_and_percentile(string)` from parse.py (lines 60-70):
on a match return groups 3, 4 and 5 — `(imperial, unit, percentile)` —
discarding groups 1 and 2; otherwise raise `ValueError` with the offending
string.  (A successful match of `metricPattern` always yields exactly five
groups; `getD` merely totalizes the destructuring.) -/
def extract_metric_and_percentile (s : List Char) :
    Except (List Char) (List Char × List Char × List Char) :=
  match reMatch metricPattern s with
  | some gs => Except.ok (gs.getD 2 [], gs.getD 3 [], gs.getD 4 [])
  | none => Except.error (invalidFormatMsg s)

/-! ## Summary parser (`src/parse.py`) -/

/-- A pandas cell: `none` models NaN / missing. -/
abbrev Cell := Option (List Char)

/-- Render a cell the way Python `"%s" % value` does: NaN renders as `"nan"`. -/
def cellStr (c : Cell) : List Char :=
  match c with
  | some s => s
  | none => str "nan"

/-- A raw table as returned by the table-extraction capability
(`tabula.read_pdf`): a grid of rows of cells.  Row `i` is `df.iloc[i]`;
column `j` collects the rows' `j`-th entries. -/
abbrev RawTable := List (List Cell)

/-- Column `j` of a raw table (`list(df[j].values)`).  A row shorter than
`j + 1` contributes `none`; the concrete tables in this development are
rectangular, so that case does not arise for them. -/
def colVals (t : RawTable) (j : Nat) : List Cell :=
  t.map (fun r => r.getD j none)

/-- A flattened one-row frame: association list of column name and value,
in pandas column order. -/
abbrev Row := List (List Char × Cell)

/-- Single-row column lookup `flattened_df[col]`: `KeyError` when absent. -/
def rowGet (r : Row) (key : List Char) : Except (List Char) Cell :=
  match r.find? (fun p => p.1 == key) with
  | some p => Except.ok p.2
  | none => Except.error (str "KeyError: " ++ key)

/-- `del flattened_df[key]`: `KeyError` when the column is absent. -/
def rowDel (r : Row) (key : List Char) : Except (List Char) Row :=
  if r.any (fun p => p.1 == key) then pure (r.filter (fun p => !(p.1 == key)))
  else Except.error (str "KeyError: " ++ key)

/-- One iteration of the metric-extraction loop of `_parse_executive_summary`
(parse.py lines 50-55) for column `col`: parse the compound cell value,
append the two new columns `"<col> <unit>"` and `"<col> Percentile"` at the
end (pandas column assignment appends), then delete the original column.
`re.match` on a NaN cell would raise in Python; modelled as an error. -/
def extractMetricCol (r : Row) (col : List Char) : Except (List Char) Row := do
  let v ← rowGet r col
  let s ← match v with
    | some s => Except.ok s
    | none => Except.error (str "TypeError: expected string or bytes-like object")
  let (imperial, unit, percentile) ← extract_metric_and_percentile s
  rowDel (r ++ [(col ++ ' ' :: unit, some imperial),
    (col ++ str " Percentile", some percentile)]) col

/-- `_parse_executive_summary(df)` from parse.py (lines 36-57): flatten the
two side-by-side key/value column pairs into one single-row frame (keys =
column 0 then column 2, values = column 1 then column 3), extract the three
compound metric columns in order, then drop `Due Date`.  pandas column
labels are the key strings; a NaN key would render as `"nan"`. -/
def parse_executive_summary (df : RawTable) : Except (List Char) Row := do
  let columns := (colVals df 0 ++ colVals df 2).map cellStr
  let data := colVals df 1 ++ colVals df 3
  let flattened := columns.zip data
  let flattened ← extractMetricCol flattened (str "Latest Weight")
  let flattened ← extractMetricCol flattened (str "Latest Height")
  let flattened ← extractMetricCol flattened (str "Latest Head Circumference")
  rowDel flattened (str "Due Date")

/-- `_parse_diapers(df)` from parse.py (lines 73-87): row 0 holds the column
labels (its first cell skipped, NaN labels not skipped); rows 1 and 2 are
the two diaper types, the row's first cell naming the type.  Columns are
`("%s %s" % (name, diaper_type)).lower()`; values are taken as-is. -/
def parse_diapers (df : RawTable) : Row :=
  (([1, 2] : List Nat).map fun ri =>
    let row := df.getD ri []
    let dtype := cellStr (row.getD 0 none)
    (df.getD 0 []).enum.filterMap fun p =>
      if p.1 = 0 then none
      else some ((cellStr p.2 ++ ' ' :: dtype).map Char.toLower,
        row.getD p.1 none)).flatten

/-- Python `value.replace(" mins", "")`: remove every occurrence, scanning
left to right. -/
def stripMins : List Char → List Char
  | ' ' :: 'm' :: 'i' :: 'n' :: 's' :: rest => stripMins rest
  | c :: rest => c :: stripMins rest
  | [] => []

/-- Python substring containment `pat in s`. -/
def isSub (pat : List Char) : List Char → Bool
  | [] => pat.isEmpty
  | c :: cs => pat.isPrefixOf (c :: cs) || isSub pat cs

/-- The bottle-feeding column constructor `"%s:%s" % (bottle_type, name)`
(parse.py line 120). -/
def mkBottleColumn (btype name : List Char) : List Char := btype ++ ':' :: name

/-- `_parse_feedings(df)` from parse.py (lines 90-126).  Rows 0-2: the two
breastfeeding sides — row 0 holds labels (first cell and NaN labels
skipped); the column is `"%s %s" % (name, side)` (no lower-casing here) and
the value gets `" mins"` removed.  Rows 3-5: bottle feeding — row-0-cell
text containing `"Breastmilk"` normalizes the type to `breastmilk`,
containing `"Formula"` to `formula`, anything else stays as rendered; the
column is `"%s:%s" % (bottle_type, name)` and a value equal to `N/A` (after
`" mins"` removal) becomes NaN.  `.replace` on a NaN value cell would raise
in Python; it does not arise in the concrete tables used here and is
modelled as passing NaN through. -/
def parse_feedings (df : RawTable) : Row :=
  ((([1, 2] : List Nat).map fun ri =>
    let row := df.getD ri []
    let side := cellStr (row.getD 0 none)
    (df.getD 0 []).enum.filterMap fun p =>
      match p.2 with
      | none => none
      | some name =>
        if p.1 = 0 then none
        else some (name ++ ' ' :: side, (row.getD p.1 none).map stripMins)).flatten)
  ++
  ((([4, 5] : List Nat).map fun ri =>
    let row := df.getD ri []
    let bt0 := cellStr (row.getD 0 none)
    let btype :=
      if isSub (str "Breastmilk") bt0 then str "breastmilk"
      else if isSub (str "Formula") bt0 then str "formula"
      else bt0
    (df.getD 3 []).enum.filterMap fun p =>
      match p.2 with
      | none => none
      | some name =>
        if p.1 = 0 then none
        else
          let v := (row.getD p.1 none).map stripMins
          some (mkBottleColumn btype name,
            if v == some (str "N/A") then none else v)).flatten)

/-- `parse_summary(f)` from parse.py (lines 12-33), with the
table-extraction boundary (`tabula.read_pdf`) supplied as input.  Exactly
four tables are destructured `(raw_summary, raw_feedings, _, raw_diapers)`
(`ValueError` otherwise); the three flattened fragments are concatenated
column-wise in the order summary, diapers, feedings; every column name of
the combined row — bottle-feeding columns included — is passed through
`normalizeColumn`; finally `week_start_date`, derived from the filename, is
inserted as the first column (after the rename, so it is not itself
renamed). -/
def parse_summary (f : List Char) (tables : List RawTable) :
    Except (List Char) Row :=
  match tables with
  | [raw_summary, raw_feedings, _, raw_diapers] => do
    let summary ← parse_executive_summary raw_summary
    let diapers := parse_diapers raw_diapers
    let feedings := parse_feedings raw_feedings
    let df := (summary ++ diapers ++ feedings).map fun p =>
      (normalizeColumn p.1, p.2)
    pure ((str "week_start_date", some (dateStrOfFilename f)) :: df)
  | _ => Except.error (str "ValueError: expected four tables")

/-! ## Orchestrator (the `__main__` block of parse.py, lines 129-142) -/

/-- A CSV file written by `df.to_csv(path, index=False)`: its path, its
rows, whether a header row is written (`to_csv` default: yes) and whether a
row-index column is written (`index=False`: no). -/
structure OutFile where
  path : String
  rows : List Row
  header : Bool
  index : Bool
deriving DecidableEq, Repr

/-- The sort key of `df.sort_values(by="week_start_date")`: the row's
`week_start_date` cell. -/
def weekKey (r : Row) : List Char :=
  match r.find? (fun p => p.1 == str "week_start_date") with
  | some p => cellStr p.2
  | none => []

/-- Row ordering by `week_start_date` (Python string comparison). -/
def rowLe (a b : Row) : Prop := strLe (weekKey a) (weekKey b) = true

instance : DecidableRel rowLe := fun _ _ => inferInstanceAs (Decidable (_ = true))

/-- `f.endswith(".pdf")`. -/
def endsWithPdf (f : List Char) : Bool := (str ".pdf").isSuffixOf f

/-- The `__main__` block of parse.py (lines 129-142), with the directory
listing and each file's extracted tables supplied as input: select the
filenames ending in `.pdf` (in listing order), parse each into one summary
row, concatenate (`pd.concat` raises `ValueError` on an empty sequence),
sort ascending by `week_start_date`, and write the single output file
`csvs/summary.csv` (`os.path.join("csvs", "summary.csv")`) with a header
row and no index column.  No other file is written — in particular nothing
from parse_history.py is invoked here. -/
def main_entry (listing : List (List Char × List RawTable)) :
    Except (List Char) (List OutFile) :=
  match (listing.filter fun e => endsWithPdf e.1).mapM
      (fun e => parse_summary e.1 e.2) with
  | Except.error e => Except.error e
  | Except.ok rows =>
    if rows.isEmpty then
      Except.error (str "ValueError: No objects to concatenate")
    else
      Except.ok [⟨"csvs/summary.csv", List.insertionSort rowLe rows, true, false⟩]

/-! ## Concrete inputs used by witnesses and counterexamples -/

/-- A concrete executive-summary table: two rows of four cells, the
side-by-side key/value column-pair layout. -/
def demoExec : RawTable :=
  [[some (str "Latest Weight"), some (str "3.2 kg / 7.17 lbs (28.54%)"),
    some (str "Latest Head Circumference"), some (str "14.5 cm / 5.71 in (30%)")],
   [some (str "Latest Height"), some (str "53 cm / 20.87 in (45.86%)"),
    some (str "Due Date"), some (str "01/01/2023")]]

/-- A concrete feeding-summary table: breastfeeding rows 0-2, bottle rows 3-5. -/
def demoFeed : RawTable :=
  [[some (str "Sides"), some (str "Total Time"), none],
   [some (str "Left"), some (str "80 mins"), none],
   [some (str "Right"), some (str "75 mins"), none],
   [some (str "Bottle"), some (str "Total Time"), none],
   [some (str "Breastmilk (Pumped)"), some (str "N/A"), none],
   [some (str "Formula"), some (str "30 mins"), none]]

/-- A concrete diaper-summary table. -/
def demoDiaper : RawTable :=
  [[some (str "Diapers"), some (str "Total")],
   [some (str "Pee"), some (str "20")],
   [some (str "Poop"), some (str "6")]]

/-- The four tables the extraction capability returns for one PDF (the
third is unused by the code). -/
def demoTables : List RawTable := [demoExec, demoFeed, [], demoDiaper]

/-- A one-file input listing for the entry point. -/
def demoListing : List (List Char × List RawTable) :=
  [(str "glow_weekly_01152023.pdf", demoTables)]

/-- The files the entry point writes on `demoListing`. -/
def demoOuts : List OutFile := (main_entry demoListing).toOption.getD []

/-- The column names of a successfully parsed row (`[]` on error). -/
def okCols (e : Except (List Char) Row) : List (List Char) :=
  match e with
  | Except.ok r => r.map Prod.fst
  | Except.error _ => []

/-! ## Helper lemmas -/

theorem ppm_eq : PIXELS_PER_MINUTE = 241 / 80 := by
  norm_num [PIXELS_PER_MINUTE, SEGMENT_WIDTH]

theorem ppm_lt_iff (n : Nat) : PIXELS_PER_MINUTE < (n : ℚ) ↔ 4 ≤ n := by
  rw [ppm_eq, div_lt_iff₀ (by norm_num : (0 : ℚ) < 80)]
  rw [show ((n : ℚ) * 80) = ((n * 80 : Nat) : ℚ) from by push_cast; ring]
  rw [show ((241 : ℚ) = ((241 : Nat) : ℚ)) from by norm_num]
  rw [Nat.cast_lt]
  omega

/-- `int(n / PIXELS_PER_MINUTE)` for a natural `n` is `80 * n / 241`. -/
theorem floor_div_ppm (n : Nat) :
    (⌊(n : ℚ) / PIXELS_PER_MINUTE⌋).toNat = 80 * n / 241 := by
  rw [ppm_eq, div_div_eq_mul_div, Int.floor_toNat]
  rw [show ((n : ℚ) * 80) = ((80 * n : Nat) : ℚ) from by push_cast; ring]
  rw [show ((241 : ℚ) = ((241 : Nat) : ℚ)) from by norm_num]
  rw [Nat.floor_div_nat, Nat.floor_natCast]

/-- The emission guard of `ptGo` is the source's
`current_duration > PIXELS_PER_MINUTE`, read against the exact `241/80`. -/
theorem ptGo_guard_eq_source (cd : Nat) :
    (241 < 80 * cd) ↔ PIXELS_PER_MINUTE < (cd : ℚ) := by
  rw [ppm_lt_iff]
  omega

/-- The double `PIXELS_PER_MINUTE` is strictly above the exact `241/80`. -/
theorem ppm_lt_ppm_float : PIXELS_PER_MINUTE < PPM_FLOAT := by
  rw [ppm_eq]
  unfold PPM_FLOAT
  norm_num

/-- An integer counter exceeds the double `PIXELS_PER_MINUTE` iff it is at
least 4. -/
theorem ppm_float_lt_iff (cd : Nat) : PPM_FLOAT < (cd : ℚ) ↔ 4 ≤ cd := by
  unfold PPM_FLOAT
  rw [div_lt_iff₀ (by norm_num : (0 : ℚ) < 1125899906842624)]
  rw [show ((cd : ℚ) * 1125899906842624) = ((cd * 1125899906842624 : Nat) : ℚ) from by
    push_cast; ring]
  rw [show ((3391773469363405 : ℚ) = ((3391773469363405 : Nat) : ℚ)) from by norm_num]
  rw [Nat.cast_lt]
  omega

/-- The emission guard of `ptGo` also agrees with the comparison the
program actually makes, against the double. -/
theorem ptGo_guard_eq_float (cd : Nat) :
    (241 < 80 * cd) ↔ PPM_FLOAT < (cd : ℚ) := by
  rw [ppm_float_lt_iff]
  omega

/-- `durationPixels` is the source's float floor-division
`current_duration // PIXELS_PER_MINUTE`: the floor of the counter divided
by the double's exact value. -/
theorem duration_eq_source (cd : Nat) :
    durationPixels cd = (⌊(cd : ℚ) / PPM_FLOAT⌋).toNat := by
  unfold durationPixels PPM_FLOAT
  rw [div_div_eq_mul_div, Int.floor_toNat]
  rw [show ((cd : ℚ) * 1125899906842624) = ((1125899906842624 * cd : Nat) : ℚ) from by
    push_cast; ring]
  rw [show ((3391773469363405 : ℚ) = ((3391773469363405 : Nat) : ℚ)) from by norm_num]
  rw [Nat.floor_div_nat, Nat.floor_natCast]

set_option maxRecDepth 8192 in
/-- Within a 723-pixel segment the float duration agrees with the exact
rational floor `80·cd/241` except at the reachable multiples of 241, where
it is one less — the deviation the double's excess over `241/80` causes. -/
theorem durationPixels_vs_exact :
    (∀ cd, cd < 724 → durationPixels cd =
      (if 241 ∣ cd ∧ cd ≠ 0 then 80 * cd / 241 - 1 else 80 * cd / 241)) ∧
    durationPixels 241 = 79 ∧ durationPixels 482 = 159 := by
  refine ⟨by decide, by decide, by decide⟩

/-- `totalMinutes` is the source's
`min(int(total_pixels / PIXELS_PER_MINUTE), 60 * 24 - 1)`. -/
theorem totalMinutes_eq_source (bin_num start_i : Nat) :
    totalMinutes bin_num start_i =
      min (⌊((bin_num * SEGMENT_WIDTH + start_i : Nat) : ℚ) / PIXELS_PER_MINUTE⌋).toNat
        (60 * 24 - 1) := by
  unfold totalMinutes
  rw [floor_div_ppm]

/-- Processing a block of `1`-pixels alone emits nothing, whatever the state. -/
theorem ptGo_ones (bin_num : Nat) (date : Date) (k : Nat) :
    ∀ i prev cd, ptGo bin_num date i prev cd (List.replicate k Px.one) = [] := by
  induction k with
  | zero => intro i prev cd; rfl
  | succ k ih =>
    intro i prev cd
    rw [List.replicate_succ]
    simpa [ptGo] using ih (i + 1) Px.one (cd + 1)

/-- Appending trailing `1`-pixels never changes the emitted events. -/
theorem ptGo_append_ones (bin_num : Nat) (date : Date) (k : Nat) :
    ∀ (vs : List Px) (i : Nat) (prev : Px) (cd : Nat),
      ptGo bin_num date i prev cd (vs ++ List.replicate k Px.one) =
        ptGo bin_num date i prev cd vs := by
  intro vs
  induction vs with
  | nil =>
    intro i prev cd
    simpa using ptGo_ones bin_num date k i prev cd
  | cons v vs ih =>
    intro i prev cd
    simp only [List.cons_append]
    by_cases h1 : v = Px.one
    · simp [ptGo, h1, ih]
    · by_cases h2 : prev = Px.one ∧ PIXELS_PER_MINUTE < (cd : ℚ)
      · simp [ptGo, h1, h2, ih]
      · simp [ptGo, h1, h2, ih]

/-- Processing a block of `0`-pixels from a `prev_val = 0` state emits
nothing, whatever `current_duration` is (the emission guard needs
`prev_val == 1`). -/
theorem ptGo_zeros (bin_num : Nat) (date : Date) (b : Nat) :
    ∀ i cd, ptGo bin_num date i Px.zero cd (List.replicate b Px.zero) = [] := by
  induction b with
  | zero => intro i cd; rfl
  | succ b ih =>
    intro i cd
    rw [List.replicate_succ]
    simpa [ptGo] using ih (i + 1) cd

/-- Leading `0`-pixels from the initial state only advance the index. -/
theorem ptGo_lead_zeros (bin_num : Nat) (date : Date) (a : Nat) :
    ∀ (i : Nat) (rest : List Px),
      ptGo bin_num date i Px.zero 0 (List.replicate a Px.zero ++ rest) =
        ptGo bin_num date (i + a) Px.zero 0 rest := by
  induction a with
  | zero => intro i rest; simp
  | succ a ih =>
    intro i rest
    rw [List.replicate_succ, List.cons_append]
    rw [show ptGo bin_num date i Px.zero 0 (Px.zero :: (List.replicate a Px.zero ++ rest)) =
        ptGo bin_num date (i + 1) Px.zero 0 (List.replicate a Px.zero ++ rest) from by
      simp [ptGo]]
    rw [ih (i + 1) rest]
    congr 1
    omega

/-- Processing a block of `n + 1` `1`-pixels updates the state to
`prev_val = 1`, `current_duration + n + 1`. -/
theorem ptGo_ones_then (bin_num : Nat) (date : Date) :
    ∀ (n i : Nat) (prev : Px) (cd : Nat) (rest : List Px),
      ptGo bin_num date i prev cd (List.replicate (n + 1) Px.one ++ rest) =
        ptGo bin_num date (i + n + 1) Px.one (cd + n + 1) rest := by
  intro n
  induction n with
  | zero =>
    intro i prev cd rest
    simp [ptGo]
  | succ n ih =>
    intro i prev cd rest
    rw [List.replicate_succ, List.cons_append]
    rw [show ptGo bin_num date i prev cd
          (Px.one :: (List.replicate (n + 1) Px.one ++ rest)) =
        ptGo bin_num date (i + 1) Px.one (cd + 1) (List.replicate (n + 1) Px.one ++ rest)
      from by simp [ptGo]]
    rw [ih (i + 1) Px.one (cd + 1) rest]
    congr 1 <;> omega

/-- Unfolding `ptGo` on a non-`1` head value. -/
theorem ptGo_cons_not_one (bin_num : Nat) (date : Date) (i : Nat) (prev : Px)
    (cd : Nat) (v : Px) (vs : List Px) (hv : v ≠ Px.one) :
    ptGo bin_num date i prev cd (v :: vs) =
      if prev = Px.one ∧ 241 < 80 * cd then
        (⟨date, totalMinutes bin_num (i - cd) / 60, totalMinutes bin_num (i - cd) % 60⟩,
          durationPixels cd) :: ptGo bin_num date (i + 1) v 0 vs
      else ptGo bin_num date (i + 1) v cd vs := by
  simp [ptGo, hv]

/-! ## Claim theorems -/

/-- C9: the color classification function, with threshold 235, maps
`(235,235,235)` to WHITE, `(234,234,234)` to DARK, `(0,0,240)` to BLUE,
`(240,0,0)` to YELLOW, and `(240,240,0)` to unclassified (`None`). -/
theorem c9_color_classification :
    get_color_range 235 235 235 = some ColorRange.WHITE ∧
    get_color_range 234 234 234 = some ColorRange.DARK ∧
    get_color_range 0 0 240 = some ColorRange.BLUE ∧
    get_color_range 240 0 0 = some ColorRange.YELLOW ∧
    get_color_range 240 240 0 = none := by
  refine ⟨?_, ?_, ?_, ?_, ?_⟩ <;> decide

/-- C4 (code-bug evaluation): when `tmp/` is absent, `_write_tmp_jpg`
evaluates `os.path.mkdir`, an attribute `os.path` does not have, so
extraction fails with `AttributeError` instead of creating the directory;
when `tmp/` already exists the step succeeds. -/
theorem c4_tmpdir_creation_fails :
    ensure_temp_dir false = Except.error (PyErr.attributeError "os.path" "mkdir") ∧
    ensure_temp_dir true = Except.ok () := by
  refine ⟨rfl, rfl⟩

/-- C7: a run of `1`-values still open at the end of the series never
produces an event: appending any number of trailing `1`-pixels to any
series leaves the emitted events unchanged, so the trailing open run
contributes nothing regardless of its length. -/
theorem c7_open_run_never_emitted (values : List Px) (k bin_num : Nat) (date : Date) :
    process_timeseries (values ++ List.replicate k Px.one) bin_num date =
      process_timeseries values bin_num date := by
  unfold process_timeseries
  exact ptGo_append_ones bin_num date k values 0 Px.zero 0

/-- C8: for every bin number `0..5` and run start index within a segment,
minutes-of-day equals `floor(absolute_pixel_offset / PIXELS_PER_MINUTE)`
clamped to at most `1439`, hence hour `< 24` and minute `< 60` — the event
timestamp never rolls into the next calendar day. -/
theorem c8_minute_clamping (bin_num start_i : Nat) (hb : bin_num ≤ 5)
    (hs : start_i < SEGMENT_WIDTH) :
    totalMinutes bin_num start_i =
      min (⌊((bin_num * SEGMENT_WIDTH + start_i : Nat) : ℚ) / PIXELS_PER_MINUTE⌋).toNat
        1439 ∧
    totalMinutes bin_num start_i ≤ 1439 ∧
    totalMinutes bin_num start_i / 60 < 24 ∧
    totalMinutes bin_num start_i % 60 < 60 := by
  have he : totalMinutes bin_num start_i =
      min (80 * (bin_num * SEGMENT_WIDTH + start_i) / 241) 1439 := rfl
  refine ⟨totalMinutes_eq_source bin_num start_i, ?_, ?_, ?_⟩ <;> rw [he] <;> omega

/-- C8 witness: the extreme in-range offset (bin 5, start index 722). -/
theorem c8_witness :
    totalMinutes 5 722 =
      min (⌊((5 * SEGMENT_WIDTH + 722 : Nat) : ℚ) / PIXELS_PER_MINUTE⌋).toNat 1439 ∧
    totalMinutes 5 722 ≤ 1439 ∧
    totalMinutes 5 722 / 60 < 24 ∧
    totalMinutes 5 722 % 60 < 60 :=
  c8_minute_clamping 5 722 (by decide) (by decide)

/-- C10: the running `1`-counter is reset only when an event is emitted, so
separate short runs accumulate: the series `[1,1,0,1,1,0]` emits one event
although its longest contiguous run of `1`s has length 2, which does not
exceed `PIXELS_PER_MINUTE`. -/
theorem c10_accumulation :
    (process_timeseries [Px.one, Px.one, Px.zero, Px.one, Px.one, Px.zero] 0
      ⟨2023, 1, 9⟩).length = 1 ∧
    maxOnesRun [Px.one, Px.one, Px.zero, Px.one, Px.one, Px.zero] = 2 ∧
    ¬ (PIXELS_PER_MINUTE <
      ((maxOnesRun [Px.one, Px.one, Px.zero, Px.one, Px.one, Px.zero] : Nat) : ℚ)) := by
  refine ⟨by decide, by decide, fun h => ?_⟩
  have h4 := (ppm_lt_iff (maxOnesRun [Px.one, Px.one, Px.zero, Px.one, Px.one, Px.zero])).mp h
  have h2 : maxOnesRun [Px.one, Px.one, Px.zero, Px.one, Px.one, Px.zero] = 2 := by decide
  omega

/-- C2 fails as stated: the series `[0,1,1,1,0,1,1,1,0]` contains only runs
of exactly 3 consecutive `1`s surrounded by `0`s (3 does not exceed
`PIXELS_PER_MINUTE`), yet an event is emitted, because the `1`-counter
accumulates across the two short runs. -/
theorem c2_counterexample :
    process_timeseries
        [Px.zero, Px.one, Px.one, Px.one, Px.zero, Px.one, Px.one, Px.one, Px.zero] 0
        ⟨2023, 1, 9⟩ =
      [(⟨⟨2023, 1, 9⟩, 0, 0⟩, 1)] ∧
    maxOnesRun
        [Px.zero, Px.one, Px.one, Px.one, Px.zero, Px.one, Px.one, Px.one, Px.zero] = 3 ∧
    ¬ (PIXELS_PER_MINUTE < ((3 : Nat) : ℚ)) := by
  refine ⟨by decide, by decide, fun h => ?_⟩
  have h4 := (ppm_lt_iff 3).mp h
  omega

/-- C2 (amended): for a series consisting of a single run of `n` `1`s
preceded by any number of `0`s and followed by at least one `0`, an event is
emitted iff the run length exceeds `PIXELS_PER_MINUTE` (iff `n ≥ 4`), with
start index at the run start and duration `n // PIXELS_PER_MINUTE` in float
semantics — `⌊n / PPM_FLOAT⌋`, the floor against the double, one below
`⌊80·n/241⌋` at multiples of 241.  In particular a run of exactly 3 yields
no event, and a run of 4 yields one event of duration 1 minute.  (The "only
contiguous runs" reading fails on series with several short runs — see the
counterexample.) -/
theorem c2_run_length_threshold (a n b bin_num : Nat) (date : Date) :
    process_timeseries
        (List.replicate a Px.zero ++ List.replicate n Px.one ++
          List.replicate (b + 1) Px.zero) bin_num date =
      (if 4 ≤ n then
        [(⟨date, totalMinutes bin_num a / 60, totalMinutes bin_num a % 60⟩,
          durationPixels n)]
      else []) ∧
    (PIXELS_PER_MINUTE < (n : ℚ) ↔ 4 ≤ n) ∧
    durationPixels n = (⌊(n : ℚ) / PPM_FLOAT⌋).toNat ∧
    durationPixels 4 = 1 := by
  refine ⟨?_, ppm_lt_iff n, duration_eq_source n, by decide⟩
  unfold process_timeseries
  rw [List.append_assoc, ptGo_lead_zeros]
  simp only [Nat.zero_add]
  cases n with
  | zero =>
    simp only [List.replicate_zero, List.nil_append]
    rw [ptGo_zeros]
    simp
  | succ m =>
    rw [ptGo_ones_then]
    simp only [Nat.zero_add]
    rw [List.replicate_succ]
    rw [ptGo_cons_not_one bin_num date (a + m + 1) Px.one (m + 1) Px.zero
      (List.replicate b Px.zero) (by decide)]
    rw [ptGo_zeros, ptGo_zeros]
    have hidx : (a + m + 1) - (m + 1) = a := by omega
    rw [hidx]
    by_cases hc : 4 ≤ m + 1
    · rw [if_pos ⟨rfl, by omega⟩, if_pos hc]
    · rw [if_neg (fun hand => absurd hand.2 (by omega : ¬ 241 < 80 * (m + 1))),
        if_neg hc]

/-- A successful `reMatch` forces every literal token's character to occur
in the input. -/
theorem reMatch_lit_mem :
    ∀ (ts : List RTok) (xs : List Char) (caps : List (List Char)) (c : Char),
      reMatch ts xs = some caps → RTok.lit c ∈ ts → c ∈ xs := by
  intro ts
  induction ts with
  | nil =>
    intro xs caps c _ hmem
    simp at hmem
  | cons t ts ih =>
    intro xs caps c hm hmem
    cases t with
    | lit d =>
      cases xs with
      | nil => simp [reMatch] at hm
      | cons x xs =>
        simp only [reMatch] at hm
        by_cases hxd : x = d
        · rw [if_pos hxd] at hm
          rcases List.mem_cons.mp hmem with heq | hmem2
          · cases heq
            subst hxd
            exact List.mem_cons_self x xs
          · exact List.mem_cons_of_mem x (ih xs caps c hm hmem2)
        · rw [if_neg hxd] at hm
          cases hm
    | star cls cap =>
      have hmem2 : RTok.lit c ∈ ts := by
        rcases List.mem_cons.mp hmem with heq | h
        · cases heq
        · exact h
      simp only [reMatch] at hm
      obtain ⟨k, hk, hfk⟩ := List.exists_of_findSome?_eq_some hm
      cases hrm : reMatch ts (xs.drop k) with
      | none => rw [hrm] at hfk; cases hfk
      | some caps2 =>
        exact List.drop_subset k xs (ih (xs.drop k) caps2 c hrm hmem2)

/-- The pattern contains the literal `/` token. -/
theorem lit_slash_mem : RTok.lit '/' ∈ metricPattern := by
  unfold metricPattern
  exact List.Mem.tail _ (List.Mem.tail _ (List.Mem.tail _ (List.Mem.tail _
    (List.Mem.head _))))

/-- A string without `/` cannot match `metricPattern`, so extraction fails
with the `ValueError` message containing the offending string. -/
theorem extract_fails_without_slash (s : List Char) (h : '/' ∉ s) :
    extract_metric_and_percentile s = Except.error (invalidFormatMsg s) := by
  unfold extract_metric_and_percentile
  cases hm : reMatch metricPattern s with
  | none => rfl
  | some caps =>
    exact absurd (reMatch_lit_mem metricPattern s caps '/' hm lit_slash_mem) h

/-- C5: the compound metric string `"3.2 kg / 7.17 lbs (28.54%)"` parses to
imperial value `"7.17"`, unit `"lbs"` and percentile `"28.54"` (percent sign
and everything after it discarded); any string without the `/` separator
fails with the `ValueError` whose message includes the offending string; and
failure happens exactly when the pattern does not match — the only failure
case of the operation. -/
theorem c5_compound_metric_parsing :
    extract_metric_and_percentile (str "3.2 kg / 7.17 lbs (28.54%)") =
      Except.ok (str "7.17", str "lbs", str "28.54") ∧
    (∀ s : List Char, '/' ∉ s →
      extract_metric_and_percentile s = Except.error (invalidFormatMsg s)) ∧
    (∀ s : List Char,
      (∃ e, extract_metric_and_percentile s = Except.error e) ↔
        reMatch metricPattern s = none) := by
  refine ⟨by decide, extract_fails_without_slash, ?_⟩
  intro s
  constructor
  · rintro ⟨e, he⟩
    unfold extract_metric_and_percentile at he
    cases hm : reMatch metricPattern s with
    | none => rfl
    | some caps => rw [hm] at he; cases he
  · intro hm
    unfold extract_metric_and_percentile
    rw [hm]
    exact ⟨invalidFormatMsg s, rfl⟩

/-- C5 witness: a concrete string missing the `/` separator fails with the
message that includes it. -/
theorem c5_witness :
    '/' ∉ str "3.2 kg 7.17 lbs (28.54%)" ∧
    extract_metric_and_percentile (str "3.2 kg 7.17 lbs (28.54%)") =
      Except.error (invalidFormatMsg (str "3.2 kg 7.17 lbs (28.54%)")) :=
  ⟨by decide, c5_compound_metric_parsing.2.1 (str "3.2 kg 7.17 lbs (28.54%)") (by decide)⟩

/-- `takeWhile` consumes a fully satisfying prefix and stops at the first
failing element. -/
theorem takeWhile_append_sat (p : Char → Bool) (l1 : List Char) (a : Char)
    (l2 : List Char) (h1 : ∀ c ∈ l1, p c = true) (h2 : p a = false) :
    (l1 ++ a :: l2).takeWhile p = l1 := by
  induction l1 with
  | nil => simp [List.takeWhile_cons, h2]
  | cons c l1 ih =>
    have hc := h1 c (List.mem_cons_self c l1)
    have ih2 := ih (fun d hd => h1 d (List.mem_cons_of_mem c hd))
    simp [List.takeWhile_cons, hc, ih2]

/-- `split("_")[-1]` of `p ++ "_" ++ d` is `d` when `d` has no underscore. -/
theorem lastTokenU_append (p d : List Char) (hd : '_' ∉ d) :
    lastTokenU (p ++ '_' :: d) = d := by
  unfold lastTokenU
  rw [List.reverse_append, List.reverse_cons, List.append_assoc,
    List.singleton_append]
  rw [takeWhile_append_sat _ d.reverse '_' p.reverse ?_ ?_]
  · exact List.reverse_reverse d
  · intro c hc
    simp only [decide_eq_true_eq]
    intro heq
    exact hd (heq ▸ List.mem_reverse.mp hc)
  · simp

/-- The position of the last dot shifts under prepending. -/
theorem lastDotPos_append_some (l1 l2 : List Char) (k : Nat)
    (h : lastDotPos l2 = some k) :
    lastDotPos (l1 ++ l2) = some (l1.length + k) := by
  induction l1 with
  | nil => simpa using h
  | cons c l1 ih =>
    rw [List.cons_append]
    rw [show lastDotPos (c :: (l1 ++ l2)) =
        (match lastDotPos (l1 ++ l2) with
          | some j => some (j + 1)
          | none => if c = '.' then some 0 else none) from rfl]
    rw [ih]
    simp only [List.length_cons, Option.some.injEq]
    omega

/-- `os.path.splitext` strips exactly the `.pdf` extension from a stem
containing an underscore. -/
theorem splitextRoot_stem (stem : List Char) (hmem : '_' ∈ stem) :
    splitextRoot (stem ++ str ".pdf") = stem := by
  unfold splitextRoot
  rw [lastDotPos_append_some stem (str ".pdf") 0 (by decide)]
  simp only [Nat.add_zero]
  rw [List.take_left]
  have hall : stem.all (fun c => decide (c = '.')) = false :=
    Bool.eq_false_iff.mpr (fun htrue => by
      have h2 := List.all_eq_true.mp htrue '_' hmem
      simp at h2)
  rw [hall]
  simp

/-- C6: for every filename `<prefix>_MMDDYYYY.pdf`, the Summary Parser
derives the string `YYYY-MM-DD` and the History Extractor constructs
`datetime.date(YYYY, MM, DD)` from the same 8-digit token after the last
underscore; neither looks at the PDF content (both functions take only the
filename). -/
theorem c6_filename_date (p mm dd yyyy : List Char)
    (hmm : mm.length = 2 ∧ ∀ c ∈ mm, c.isDigit)
    (hdd : dd.length = 2 ∧ ∀ c ∈ dd, c.isDigit)
    (hyy : yyyy.length = 4 ∧ ∀ c ∈ yyyy, c.isDigit) :
    dateStrOfFilename ((p ++ '_' :: ((mm ++ dd) ++ yyyy)) ++ str ".pdf") =
      yyyy ++ '-' :: mm ++ '-' :: dd ∧
    startDateOfFilename ((p ++ '_' :: ((mm ++ dd) ++ yyyy)) ++ str ".pdf") =
      pyDate (natOfDigits yyyy) (natOfDigits mm) (natOfDigits dd) := by
  have hstem : '_' ∈ p ++ '_' :: ((mm ++ dd) ++ yyyy) :=
    List.mem_append_right p (List.mem_cons_self _ _)
  have hnu : '_' ∉ (mm ++ dd) ++ yyyy := by
    intro hin
    rcases List.mem_append.mp hin with h | h
    · rcases List.mem_append.mp h with h | h
      · exact absurd (hmm.2 '_' h) (by decide)
      · exact absurd (hdd.2 '_' h) (by decide)
    · exact absurd (hyy.2 '_' h) (by decide)
  have hlast : lastTokenU (splitextRoot ((p ++ '_' :: ((mm ++ dd) ++ yyyy)) ++ str ".pdf"))
      = (mm ++ dd) ++ yyyy := by
    rw [splitextRoot_stem _ hstem]
    exact lastTokenU_append p _ hnu
  have hdrop4 : ((mm ++ dd) ++ yyyy).drop 4 = yyyy := by
    rw [show (4 : Nat) = (mm ++ dd).length from by
      rw [List.length_append, hmm.1, hdd.1]]
    exact List.drop_left _ _
  have htake2 : ((mm ++ dd) ++ yyyy).take 2 = mm := by
    rw [List.append_assoc]
    rw [show (2 : Nat) = mm.length from hmm.1.symm]
    exact List.take_left _ _
  have hdrop2 : ((mm ++ dd) ++ yyyy).drop 2 = dd ++ yyyy := by
    rw [List.append_assoc]
    rw [show (2 : Nat) = mm.length from hmm.1.symm]
    exact List.drop_left _ _
  have htkdd : (dd ++ yyyy).take 2 = dd := by
    rw [show (2 : Nat) = dd.length from hdd.1.symm]
    exact List.take_left _ _
  constructor
  · unfold dateStrOfFilename
    rw [hlast]
    simp only [hdrop4, htake2, hdrop2, htkdd]
  · unfold startDateOfFilename
    rw [hlast]
    simp only [hdrop4, htake2, hdrop2, htkdd]

/-- C6 witness: `x_01152023.pdf` yields `2023-01-15` in both components. -/
theorem c6_witness :
    dateStrOfFilename (str "x_01152023.pdf") = str "2023-01-15" ∧
    startDateOfFilename (str "x_01152023.pdf") = pyDate 2023 1 15 ∧
    pyDate 2023 1 15 = Except.ok ⟨2023, 1, 15⟩ := by
  have h := c6_filename_date (str "x") (str "01") (str "15") (str "2023")
    ⟨by decide, by decide⟩ ⟨by decide, by decide⟩ ⟨by decide, by decide⟩
  have he : (str "x" ++ '_' :: ((str "01" ++ str "15") ++ str "2023")) ++ str ".pdf"
      = str "x_01152023.pdf" := by decide
  rw [he] at h
  refine ⟨?_, ?_, by decide⟩
  · rw [h.1]
    decide
  · rw [h.2]
    decide

/-- A list of lower-case characters is fixed by `Char.toLower`. -/
theorem map_toLower_fixed (p : List Char) (hp : ∀ c ∈ p, Char.toLower c = c) :
    p.map Char.toLower = p := by
  induction p with
  | nil => rfl
  | cons c p ih =>
    simp only [List.map_cons]
    rw [hp c (List.mem_cons_self c p),
      ih (fun d hd => hp d (List.mem_cons_of_mem c hd))]

/-- `str.split(" ")` never yields an empty piece list. -/
theorem pySplitSpace_ne_nil (l : List Char) : pySplitSpace l ≠ [] := by
  cases l with
  | nil => simp [pySplitSpace]
  | cons c cs =>
    simp only [pySplitSpace]
    cases h : pySplitSpace cs with
    | nil => simp
    | cons g gs => by_cases hc : c = ' ' <;> simp [hc]

/-- A space-free prefix merges into the first piece of `str.split(" ")`. -/
theorem pySplitSpace_append (p xs : List Char) (hp : ∀ c ∈ p, c ≠ ' ') :
    pySplitSpace (p ++ xs) =
      (p ++ (pySplitSpace xs).headD []) :: (pySplitSpace xs).tail := by
  induction p with
  | nil =>
    simp only [List.nil_append]
    cases h : pySplitSpace xs with
    | nil => exact absurd h (pySplitSpace_ne_nil xs)
    | cons g gs => simp
  | cons c p ih =>
    have hc : c ≠ ' ' := hp c (List.mem_cons_self c p)
    have ih2 := ih (fun d hd => hp d (List.mem_cons_of_mem c hd))
    rw [List.cons_append]
    rw [show pySplitSpace (c :: (p ++ xs)) =
        (match pySplitSpace (p ++ xs) with
          | [] => [[c]]
          | g :: gs => if c = ' ' then [] :: g :: gs else (c :: g) :: gs) from rfl]
    rw [ih2]
    simp [hc]

/-- Normalizing a column with a lower-case, space-free, colon-containing
prefix normalizes only the suffix. -/
theorem normalizeColumn_prepend (p l : List Char)
    (hp : ∀ c ∈ p, Char.toLower c = c ∧ c ≠ ' ') :
    normalizeColumn (p ++ l) = p ++ normalizeColumn l := by
  unfold normalizeColumn
  rw [List.map_append, map_toLower_fixed p (fun c hc => (hp c hc).1)]
  rw [pySplitSpace_append p _ (fun c hc => (hp c hc).2)]
  cases h : pySplitSpace (l.map Char.toLower) with
  | nil => exact absurd h (pySplitSpace_ne_nil _)
  | cons g gs =>
    simp only [List.headD_cons, List.tail_cons]
    cases gs with
    | nil => simp [joinUnderscore]
    | cons g2 gs2 => simp [joinUnderscore, List.append_assoc]

/-- C3 fails as stated: the rename step lower-cases and underscore-joins the
bottle-feeding columns too.  For the demo tables the column built as
`breastmilk:Total Time` appears in the final row as
`breastmilk:total_time`; the as-built name (original casing) does not
survive. -/
theorem c3_counterexample :
    mkBottleColumn (str "breastmilk") (str "Total Time") =
      str "breastmilk:Total Time" ∧
    str "breastmilk:total_time" ∈
      okCols (parse_summary (str "glow_weekly_01152023.pdf") demoTables) ∧
    str "breastmilk:Total Time" ∉
      okCols (parse_summary (str "glow_weekly_01152023.pdf") demoTables) := by
  refine ⟨by decide, by decide, by decide⟩

/-- C3 (amended): every final column name — bottle-feeding `<type>:<label>`
columns included — is lower-cased with spaces replaced by underscores; only
the colon separator and the already-lower-case type prefix survive
unchanged, so a bottle column ends up as `<type>:<normalized label>`. -/
theorem c3_column_normalization (label : List Char) :
    normalizeColumn (mkBottleColumn (str "breastmilk") label) =
      mkBottleColumn (str "breastmilk") (normalizeColumn label) ∧
    normalizeColumn (mkBottleColumn (str "formula") label) =
      mkBottleColumn (str "formula") (normalizeColumn label) := by
  constructor
  · unfold mkBottleColumn
    rw [List.append_cons]
    rw [normalizeColumn_prepend (str "breastmilk" ++ [':']) label (by decide)]
    rw [← List.append_cons]
  · unfold mkBottleColumn
    rw [List.append_cons]
    rw [normalizeColumn_prepend (str "formula" ++ [':']) label (by decide)]
    rw [← List.append_cons]

/-- Code-point lexicographic `strLe` is total. -/
theorem strLe_total : ∀ a b : List Char, strLe a b = true ∨ strLe b a = true := by
  intro a
  induction a with
  | nil => intro b; left; rfl
  | cons x as ih =>
    intro b
    cases b with
    | nil => right; rfl
    | cons y bs =>
      rcases Nat.lt_trichotomy x.toNat y.toNat with h | h | h
      · left; simp [strLe, h]
      · have hxy : ¬ x.toNat < y.toNat := by omega
        have hyx : ¬ y.toNat < x.toNat := by omega
        rcases ih bs with h2 | h2
        · left; simp [strLe, hxy, hyx, h2]
        · right; simp [strLe, hxy, hyx, h2]
      · right; simp [strLe, h]

/-- Code-point lexicographic `strLe` is transitive. -/
theorem strLe_trans : ∀ a b c : List Char,
    strLe a b = true → strLe b c = true → strLe a c = true := by
  intro a
  induction a with
  | nil => intro b c _ _; rfl
  | cons x as ih =>
    intro b c hab hbc
    cases b with
    | nil => simp [strLe] at hab
    | cons y bs =>
      cases c with
      | nil => simp [strLe] at hbc
      | cons z cs =>
        simp only [strLe] at hab hbc ⊢
        by_cases h1 : x.toNat < y.toNat
        · by_cases h2 : y.toNat < z.toNat
          · simp [show x.toNat < z.toNat by omega]
          · by_cases h3 : z.toNat < y.toNat
            · rw [if_neg h2, if_pos h3] at hbc; cases hbc
            · simp [show x.toNat < z.toNat by omega]
        · by_cases h4 : y.toNat < x.toNat
          · rw [if_neg h1, if_pos h4] at hab; cases hab
          · by_cases h2 : y.toNat < z.toNat
            · simp [show x.toNat < z.toNat by omega]
            · by_cases h3 : z.toNat < y.toNat
              · rw [if_neg h2, if_pos h3] at hbc; cases hbc
              · rw [if_neg h1, if_neg h4] at hab
                rw [if_neg h2, if_neg h3] at hbc
                rw [if_neg (show ¬ x.toNat < z.toNat by omega),
                  if_neg (show ¬ z.toNat < x.toNat by omega)]
                exact ih bs cs hab hbc

/-- C1 fails as stated: a successful run of the entry point writes exactly
one file, `csvs/summary.csv`; no `csvs/events.csv` is produced (the entry
point never invokes the history extractor). -/
theorem c1_counterexample :
    main_entry demoListing = Except.ok demoOuts ∧
    demoOuts.map OutFile.path = ["csvs/summary.csv"] ∧
    "csvs/events.csv" ∉ demoOuts.map OutFile.path := by
  refine ⟨rfl, rfl, by decide⟩

/-- C1 (amended): whenever the entry point succeeds it writes exactly the
single file `csvs/summary.csv` — never `csvs/events.csv` — with a header
row and no row-index column, its rows sorted ascending by
`week_start_date` and a permutation of the rows parsed from the
`.pdf`-filtered listing. -/
theorem c1_summary_only (listing : List (List Char × List RawTable))
    (outs : List OutFile) (h : main_entry listing = Except.ok outs) :
    outs.map OutFile.path = ["csvs/summary.csv"] ∧
    "csvs/events.csv" ∉ outs.map OutFile.path ∧
    (∀ o ∈ outs, o.header = true ∧ o.index = false ∧ o.rows.Sorted rowLe) ∧
    (∃ rows, ((listing.filter fun e => endsWithPdf e.1).mapM fun e =>
        parse_summary e.1 e.2) = Except.ok rows ∧
      rows ≠ [] ∧ ∀ o ∈ outs, o.rows.Perm rows) := by
  unfold main_entry at h
  cases hm : (listing.filter fun e => endsWithPdf e.1).mapM
      (fun e => parse_summary e.1 e.2) with
  | error e =>
    rw [hm] at h
    cases h
  | ok rows =>
    rw [hm] at h
    by_cases hr : rows.isEmpty
    · simp [hr] at h
    · simp only [hr, Bool.false_eq_true, if_false] at h
      simp only [Except.ok.injEq] at h
      subst h
      haveI : IsTotal Row rowLe := ⟨fun a b => strLe_total (weekKey a) (weekKey b)⟩
      haveI : IsTrans Row rowLe :=
        ⟨fun a b c => strLe_trans (weekKey a) (weekKey b) (weekKey c)⟩
      refine ⟨rfl, by intro hmem; simp at hmem, ?_, rows, rfl, ?_, ?_⟩
      · intro o ho
        rcases List.mem_singleton.mp ho with rfl
        exact ⟨rfl, rfl, List.sorted_insertionSort rowLe rows⟩
      · intro hn
        rw [hn] at hr
        exact hr rfl
      · intro o ho
        rcases List.mem_singleton.mp ho with rfl
        exact List.perm_insertionSort rowLe rows

/-- C1 witness: the demo listing succeeds and the amended conclusions hold
on its concrete output. -/
theorem c1_witness :
    main_entry demoListing = Except.ok demoOuts ∧
    demoOuts.map OutFile.path = ["csvs/summary.csv"] ∧
    ∀ o ∈ demoOuts, o.header = true ∧ o.index = false ∧ o.rows.Sorted rowLe := by
  have h : main_entry demoListing = Except.ok demoOuts := rfl
  have h2 := c1_summary_only demoListing demoOuts h
  exact ⟨h, h2.1, h2.2.2.1⟩

end Glow
